import Mathlib

/-!
# Verification of the secret resolver (`src/lib/secrets.ts`)

A shallow embedding of the secret-resolution module of the repository:
the `Secret` enumeration, the derived `allSecrets` list, the derived
vault secret name, and the `getSecret` resolution pipeline
(credential check → authenticate → list versions → sort by creation
time descending → pick newest → fetch the value of its terminal
version identifier).

External effects are made explicit: the process environment is a
function from variable names to optional string values, the vault
client is a record of its two query functions, and `getSecret`
returns its result together with the list of network calls it issued.
-/

/-! ## JavaScript runtime values and object-key enumeration

The `allSecrets` computation in the source reflects over the runtime
object that the TypeScript compiler emits for a numeric enum.  We embed
the relevant JavaScript semantics: property values are numbers or
strings, and `Object.keys` lists array-index-like keys first in
ascending numeric order, followed by the remaining string keys in
insertion order. -/

inductive JsValue
  | num (n : Nat)
  | str (s : String)
deriving DecidableEq

/-- The numeric value of a decimal digit character. -/
def charDigit (c : Char) : Option Nat :=
  if c.isDigit then some (c.toNat - 48) else none

/-- Accumulating decimal parser over a character list; fails on the
first non-digit. -/
def parseDecimalAux : List Char → Nat → Option Nat
  | [], acc => some acc
  | c :: cs, acc =>
    match charDigit c with
    | some d => parseDecimalAux cs (acc * 10 + d)
    | none => none

/-- Parse a non-empty all-digit string as a natural number. -/
def parseDecimal (s : String) : Option Nat :=
  match s.data with
  | [] => none
  | cs => parseDecimalAux cs 0

/-- A string is an array-index-like property key when it is the
canonical decimal representation of an integer below `2^32 - 1`. -/
def isArrayIndexKey (s : String) : Bool :=
  match parseDecimal s with
  | some n => decide (toString n = s) && decide (n < 4294967295)
  | none => false

/-- Insertion into a list ordered by a JavaScript-style three-way
comparator: the element goes in front of the first element `b` with
`c a b ≤ 0`. -/
def insertBy (c : α → α → Int) (a : α) : List α → List α
  | [] => [a]
  | b :: bs => if c a b ≤ 0 then a :: b :: bs else b :: insertBy c a bs

/-- Deterministic model of `Array.prototype.sort` with comparator `c`:
for a consistent comparator the ECMAScript specification forces the
(unique) order in which `c` never reports an inversion, which this
insertion sort produces. -/
def sortBy (c : α → α → Int) : List α → List α
  | [] => []
  | a :: as => insertBy c a (sortBy c as)

/-- `Object.keys` on an object whose own properties were created in
the given insertion order (all keys distinct): array-index-like keys
first, ascending numerically, then the rest in insertion order. -/
def objectKeys (props : List (String × JsValue)) : List String :=
  let keys := props.map Prod.fst
  let indexKeys := keys.filter isArrayIndexKey
  let stringKeys := keys.filter fun k => !(isArrayIndexKey k)
  sortBy (fun a b => if (parseDecimal a).getD 0 ≤ (parseDecimal b).getD 0 then (-1 : Int) else 1)
      indexKeys
    ++ stringKeys

/-- Property lookup on the embedded object (`undefined` when absent). -/
def getProp (props : List (String × JsValue)) (k : String) : Option JsValue :=
  (props.find? fun p => p.1 == k).map Prod.snd

/-! ## The `Secret` enumeration -/

/-- `enum Secret` from `secrets.ts` (lines 6–35): four members with
the default numeric values 0, 1, 2, 3 in declaration order. -/
inductive Secret
  | AZURE_STORAGE_ACCESS_KEY
  | GITHUB_ACCESS_TOKEN
  | GITHUB_SECRET
  | NPM_TOKEN
deriving DecidableEq, Fintype

/-- The numeric value of an enum member (default initialization:
declaration position). -/
def Secret.toNum : Secret → Nat
  | .AZURE_STORAGE_ACCESS_KEY => 0
  | .GITHUB_ACCESS_TOKEN => 1
  | .GITHUB_SECRET => 2
  | .NPM_TOKEN => 3

/-- The member's source name, as produced by the reverse mapping
`Secret[secret]` of the emitted enum object. -/
def Secret.name : Secret → String
  | .AZURE_STORAGE_ACCESS_KEY => "AZURE_STORAGE_ACCESS_KEY"
  | .GITHUB_ACCESS_TOKEN => "GITHUB_ACCESS_TOKEN"
  | .GITHUB_SECRET => "GITHUB_SECRET"
  | .NPM_TOKEN => "NPM_TOKEN"

/-- The runtime object the TypeScript compiler emits for `Secret`, as
its list of property insertions: for each member in declaration order,
first the forward mapping (name ↦ number), then the reverse mapping
(number ↦ name). -/
def secretEnumInsertions : List (String × JsValue) :=
  [("AZURE_STORAGE_ACCESS_KEY", .num 0), ("0", .str "AZURE_STORAGE_ACCESS_KEY"),
   ("GITHUB_ACCESS_TOKEN", .num 1), ("1", .str "GITHUB_ACCESS_TOKEN"),
   ("GITHUB_SECRET", .num 2), ("2", .str "GITHUB_SECRET"),
   ("NPM_TOKEN", .num 3), ("3", .str "NPM_TOKEN")]

/-- Modelled from the spec: `mapDefined` from the repository's
`src/util/util` module (imported by `secrets.ts` but not included
under `src/`).  Maps a function over a list and keeps exactly the
defined (non-`undefined`) results, in order. -/
def mapDefined : List α → (α → Option β) → List β
  | [], _ => []
  | x :: xs, f =>
    match f x with
    | some y => y :: mapDefined xs f
    | none => mapDefined xs f

/-- `allSecrets` from `secrets.ts` (lines 37–40): over `Object.keys`
of the enum object, keep the property values of type number. -/
def allSecrets : List Nat :=
  mapDefined (objectKeys secretEnumInsertions) fun key =>
    match getProp secretEnumInsertions key with
    | some (.num n) => some n
    | _ => none

/-! ## Derived vault secret name -/

/-- `String.prototype.toLowerCase` restricted to the ASCII range
(the enum member names are ASCII), as a character-wise map. -/
def jsToLowerCase (s : String) : String :=
  ⟨s.data.map Char.toLower⟩

/-- `.replace(/_/g, "-")`: replace every underscore character by a
hyphen. -/
def jsReplaceUnderscoreHyphen (s : String) : String :=
  ⟨s.data.map fun ch => if ch = '_' then '-' else ch⟩

/-- `Secret[secret].toLowerCase().replace(/_/g, "-")`
(`secrets.ts` line 63). -/
def azureSecretName (secret : Secret) : String :=
  jsReplaceUnderscoreHyphen (jsToLowerCase (Secret.name secret))

/-! ## Environment and truthiness -/

/-- The process environment: a map from variable names to their
values; `none` models an unset variable. -/
abbrev Env := String → Option String

/-- JavaScript truthiness of a possibly-undefined string: `undefined`
and the empty string are falsy, every other string is truthy. -/
def truthy : Option String → Bool
  | none => false
  | some s => !(s == "")

/-! ## Vault data model -/

/-- The `attributes` record of a listed secret version; `created` is
the creation timestamp (epoch instant, compared with `<`). -/
structure VersionAttributes where
  created : Int
deriving DecidableEq

/-- A secret version as listed by the vault: its full identifier URL
and its attributes. -/
structure SecretVersion where
  id : String
  attributes : VersionAttributes
deriving DecidableEq

/-- A secret bundle returned by the vault client's value fetch; the
source reads its `.value`. -/
structure SecretBundle where
  value : String
deriving DecidableEq

/-- The vault client's two query operations, abstracted as pure
functions of `(vaultUrl, secretName[, version])`. -/
structure Vault where
  getSecretVersions : String → String → List SecretVersion
  getSecret : String → String → String → SecretBundle

/-- The comparator passed to `versions.sort`
(`secrets.ts` line 66): descending by creation timestamp. -/
def versionComparator (a b : SecretVersion) : Int :=
  if a.attributes.created < b.attributes.created then 1 else -1

/-- Splitting a character list at every occurrence of `sep`, with the
accumulator holding the current (reversed) segment; an empty input
yields the single empty segment, as `String.prototype.split` does. -/
def splitOnCharAux (sep : Char) : List Char → List Char → List (List Char)
  | [], acc => [acc.reverse]
  | c :: cs, acc =>
    if c = sep then acc.reverse :: splitOnCharAux sep cs []
    else splitOnCharAux sep cs (c :: acc)

/-- `String.prototype.split` with a single-character separator. -/
def jsSplit (sep : Char) (s : String) : List String :=
  (splitOnCharAux sep s.data []).map fun l => ⟨l⟩

/-- The terminal path segment of a version id:
`id.split("/")` then the element at index `length - 1`
(`secrets.ts` lines 68–69; the split result is never empty). -/
def terminalSegment (s : String) : String :=
  (jsSplit '/' s).getLastD ""

/-! ## Errors and network calls -/

/-- Failure modes of `getSecret`.  `configurationError` is the
explicit `Error` thrown when the credential variables are not both
truthy; `typeError` is the runtime `TypeError` raised by reading
`.id` of `versions[0]` when the version list is empty.
`notFoundError` is a distinguished not-found failure; it appears in
the specification's taxonomy and is included so that statements about
it can be expressed — the code never produces it. -/
inductive JsError
  | configurationError
  | typeError
  | notFoundError
deriving DecidableEq

/-- Network requests `getSecret` can issue, in order. -/
inductive NetworkCall
  | getSecretVersions (vaultUrl secretName : String)
  | getSecret (vaultUrl secretName version : String)
deriving DecidableEq

/-- Modelled from the spec: the vault URL constant `azureKeyvault`
from `lib/settings` (imported by `secrets.ts` but not included under
`src/`); a fixed URL string whose particular value no claim depends
on. -/
def azureKeyvault : String := "https://types-publisher.vault.azure.net"

/-! ## The resolver -/

/-- `getSecret` from `secrets.ts` (lines 42–71): read the two
credential variables and fail if either is falsy; derive the vault
secret name; list the versions; sort them descending by creation
time; take the first; fetch and return the value at the terminal path
segment of its id.  The second component records the network calls
issued. -/
def getSecret (env : Env) (vault : Vault) (secret : Secret) :
    Except JsError String × List NetworkCall :=
  let clientId := env "TYPES_PUBLISHER_CLIENT_ID"
  let clientSecret := env "TYPES_PUBLISHER_CLIENT_SECRET"
  if !(truthy clientId && truthy clientSecret) then
    (Except.error JsError.configurationError, [])
  else
    let name := azureSecretName secret
    let versions := vault.getSecretVersions azureKeyvault name
    match sortBy versionComparator versions with
    | [] =>
      (Except.error JsError.typeError,
       [NetworkCall.getSecretVersions azureKeyvault name])
    | v :: _ =>
      let urlParts := jsSplit '/' v.id
      let latest := urlParts.getLastD ""
      (Except.ok (vault.getSecret azureKeyvault name latest).value,
       [NetworkCall.getSecretVersions azureKeyvault name,
        NetworkCall.getSecret azureKeyvault name latest])

/-! ## Credential callback -/

/-- An authorization challenge from the vault: the authority URL and
the resource. -/
structure Challenge where
  authorization : String
  resource : String

/-- A token response from the identity provider. -/
structure TokenResponse where
  tokenType : String
  accessToken : String
deriving DecidableEq

/-- The `KeyVaultCredentials` callback (`secrets.ts` lines 50–58):
construct an authentication context from the challenge's authority,
exchange the client credentials for a token at the challenge's
resource, rethrow an acquisition error, and otherwise produce the
authorization header value `tokenType ++ " " ++ accessToken`.
`acquire` abstracts `AuthenticationContext.acquireTokenWithClientCredentials`,
taking the authority, the resource, the client id and the client
secret. -/
def credentialsCallback
    (acquire : String → String → String → String → Except String TokenResponse)
    (challenge : Challenge) (clientId clientSecret : String) :
    Except String String :=
  match acquire challenge.authorization challenge.resource clientId clientSecret with
  | Except.error e => Except.error e
  | Except.ok tokenResponse =>
    Except.ok (tokenResponse.tokenType ++ " " ++ tokenResponse.accessToken)

/-! ## Concrete instances used by witnesses -/

/-- An environment with both credential variables set and truthy. -/
def envOk : Env := fun k =>
  if k = "TYPES_PUBLISHER_CLIENT_ID" then some "client-id"
  else if k = "TYPES_PUBLISHER_CLIENT_SECRET" then some "client-secret"
  else none

/-- An environment setting only the variable names the specification
claims (`CLIENT_ID`, `CLIENT_SECRET`). -/
def envSpecNames : Env := fun k =>
  if k = "CLIENT_ID" then some "a-client-id"
  else if k = "CLIENT_SECRET" then some "a-client-secret"
  else none

/-- An environment whose client id is set to the empty string. -/
def envEmptyId : Env := fun k =>
  if k = "TYPES_PUBLISHER_CLIENT_ID" then some ""
  else if k = "TYPES_PUBLISHER_CLIENT_SECRET" then some "client-secret"
  else none

/-- An environment with neither credential variable set. -/
def envUnset : Env := fun _ => none

/-- A vault that has no versions for any secret name. -/
def vaultEmpty : Vault where
  getSecretVersions := fun _ _ => []
  getSecret := fun _ _ _ => ⟨""⟩

/-- A version created at time 1 with terminal id segment `v1`. -/
def ver1 : SecretVersion :=
  ⟨"https://types-publisher.vault.azure.net/secrets/npm-token/v1", ⟨1⟩⟩

/-- A version created at time 2 with terminal id segment `v2`. -/
def ver2 : SecretVersion :=
  ⟨"https://types-publisher.vault.azure.net/secrets/npm-token/v2", ⟨2⟩⟩

/-- A vault listing the two versions `ver1`, `ver2` for every name,
whose value fetch tags the requested version. -/
def vaultTwo : Vault where
  getSecretVersions := fun _ _ => [ver1, ver2]
  getSecret := fun _ _ version => ⟨"value-at-" ++ version⟩

/-- An identity provider that always grants a bearer token. -/
def acquireOk : String → String → String → String → Except String TokenResponse :=
  fun _ _ _ _ => Except.ok ⟨"Bearer", "token-123"⟩

/-- A concrete authorization challenge. -/
def challengeA : Challenge :=
  ⟨"https://login.example/tenant", "https://vault.azure.net"⟩

/-! ## Helper lemmas about the version sort -/

/-- The comparator reports no inversion (`≤ 0`) exactly when the
first version's creation time is at least the second's. -/
theorem versionComparator_nonpos_iff (a b : SecretVersion) :
    versionComparator a b ≤ 0 ↔ b.attributes.created ≤ a.attributes.created := by
  unfold versionComparator
  split <;> omega

/-- The head of the sorted version list is a member of the original
list and carries a maximal creation timestamp. -/
theorem sortBy_head_max (l : List SecretVersion) (hne : l ≠ []) :
    ∃ v t, sortBy versionComparator l = v :: t ∧ v ∈ l ∧
      ∀ w ∈ l, w.attributes.created ≤ v.attributes.created := by
  induction l with
  | nil => exact absurd rfl hne
  | cons a as ih =>
    cases as with
    | nil =>
      refine ⟨a, [], rfl, List.mem_singleton.mpr rfl, ?_⟩
      intro w hw
      rw [List.mem_singleton.mp hw]
    | cons b bs =>
      obtain ⟨v, t, heq, hv, hmax⟩ := ih (by simp)
      have hstep : sortBy versionComparator (a :: b :: bs)
          = insertBy versionComparator a (v :: t) := by
        show insertBy versionComparator a (sortBy versionComparator (b :: bs))
            = insertBy versionComparator a (v :: t)
        rw [heq]
      by_cases hc : versionComparator a v ≤ 0
      · refine ⟨a, v :: t, ?_, List.mem_cons_self a (b :: bs), ?_⟩
        · rw [hstep]; simp [insertBy, hc]
        · intro w hw
          rcases List.mem_cons.mp hw with hwa | hwas
          · rw [hwa]
          · exact le_trans (hmax w hwas) ((versionComparator_nonpos_iff a v).mp hc)
      · refine ⟨v, insertBy versionComparator a t, ?_, List.mem_cons_of_mem a hv, ?_⟩
        · rw [hstep]; simp [insertBy, hc]
        · intro w hw
          rcases List.mem_cons.mp hw with hwa | hwas
          · rw [hwa]
            have := (versionComparator_nonpos_iff a v).not.mp hc
            omega
          · exact hmax w hwas

/-! ## Claim theorems -/

/-- **C3.** If either credential environment variable is unset,
resolution fails with the configuration error and no network call is
issued (the vault client is never used). -/
theorem getSecret_unset_creds_config_error_no_network
    (env : Env) (vault : Vault) (s : Secret)
    (h : env "TYPES_PUBLISHER_CLIENT_ID" = none ∨
      env "TYPES_PUBLISHER_CLIENT_SECRET" = none) :
    getSecret env vault s = (Except.error JsError.configurationError, []) := by
  have hfalse : (truthy (env "TYPES_PUBLISHER_CLIENT_ID") &&
      truthy (env "TYPES_PUBLISHER_CLIENT_SECRET")) = false := by
    rcases h with h | h <;> simp [h, truthy]
  simp [getSecret, hfalse]

/-- Witness for C3: the all-unset environment. -/
theorem getSecret_unset_creds_config_error_no_network_witness :
    envUnset "TYPES_PUBLISHER_CLIENT_ID" = none ∧
    getSecret envUnset vaultTwo Secret.NPM_TOKEN
      = (Except.error JsError.configurationError, []) :=
  ⟨rfl, getSecret_unset_creds_config_error_no_network envUnset vaultTwo
    Secret.NPM_TOKEN (Or.inl rfl)⟩

/-- **C8.** A credential variable set to the empty string is falsy,
so it is treated exactly like an unset one: the same configuration
error, before any network call. -/
theorem getSecret_empty_string_cred_config_error
    (env : Env) (vault : Vault) (s : Secret)
    (h : env "TYPES_PUBLISHER_CLIENT_ID" = some "" ∨
      env "TYPES_PUBLISHER_CLIENT_SECRET" = some "") :
    getSecret env vault s = (Except.error JsError.configurationError, []) := by
  have hfalse : (truthy (env "TYPES_PUBLISHER_CLIENT_ID") &&
      truthy (env "TYPES_PUBLISHER_CLIENT_SECRET")) = false := by
    rcases h with h | h <;> simp [h, truthy]
  simp [getSecret, hfalse]

/-- Witness for C8: client id present but equal to the empty string. -/
theorem getSecret_empty_string_cred_config_error_witness :
    envEmptyId "TYPES_PUBLISHER_CLIENT_ID" = some "" ∧
    getSecret envEmptyId vaultTwo Secret.NPM_TOKEN
      = (Except.error JsError.configurationError, []) :=
  ⟨rfl, getSecret_empty_string_cred_config_error envEmptyId vaultTwo
    Secret.NPM_TOKEN (Or.inl rfl)⟩

/-- **C4, counterexample.** Setting `CLIENT_ID` and `CLIENT_SECRET`
(the variable names the claim states) to truthy values does not
satisfy the credential check: resolution still fails with the
configuration error, so those are not the variables the code reads. -/
theorem getSecret_env_names_counterexample :
    truthy (envSpecNames "CLIENT_ID") = true ∧
    truthy (envSpecNames "CLIENT_SECRET") = true ∧
    (getSecret envSpecNames vaultTwo Secret.NPM_TOKEN).1
      = Except.error JsError.configurationError :=
  ⟨by decide, by decide, rfl⟩

/-- **C4 (amended).** The credentials are read from the environment
variables `TYPES_PUBLISHER_CLIENT_ID` and
`TYPES_PUBLISHER_CLIENT_SECRET`; both are required, and resolution
fails with the configuration error precisely when they are not both
truthy (in particular when either is absent). -/
theorem getSecret_config_error_iff (env : Env) (vault : Vault) (s : Secret) :
    (getSecret env vault s).1 = Except.error JsError.configurationError ↔
      ¬(truthy (env "TYPES_PUBLISHER_CLIENT_ID") = true ∧
        truthy (env "TYPES_PUBLISHER_CLIENT_SECRET") = true) := by
  by_cases hc : (truthy (env "TYPES_PUBLISHER_CLIENT_ID") &&
      truthy (env "TYPES_PUBLISHER_CLIENT_SECRET")) = true
  · obtain ⟨h1, h2⟩ := Bool.and_eq_true_iff.mp hc
    cases hsort : sortBy versionComparator
        (vault.getSecretVersions azureKeyvault (azureSecretName s)) with
    | nil => simp [getSecret, hc, hsort, h1, h2]
    | cons v t => simp [getSecret, hc, hsort, h1, h2]
  · have hf : (truthy (env "TYPES_PUBLISHER_CLIENT_ID") &&
        truthy (env "TYPES_PUBLISHER_CLIENT_SECRET")) = false :=
      Bool.not_eq_true _ ▸ Bool.of_not_eq_true hc
    constructor
    · intro _ hand
      rw [hand.1, hand.2] at hf
      simp at hf
    · intro _
      simp [getSecret, hf]

/-- **C2, counterexample.** With truthy credentials and a vault that
returns an empty version list, resolution fails with the runtime type
error of reading `.id` on `versions[0]` (which is `undefined`), not
with a distinguished not-found error. -/
theorem getSecret_empty_versions_counterexample :
    vaultEmpty.getSecretVersions azureKeyvault (azureSecretName Secret.NPM_TOKEN) = [] ∧
    (getSecret envOk vaultEmpty Secret.NPM_TOKEN).1 = Except.error JsError.typeError ∧
    (getSecret envOk vaultEmpty Secret.NPM_TOKEN).1 ≠ Except.error JsError.notFoundError := by
  refine ⟨rfl, rfl, ?_⟩
  show Except.error JsError.typeError ≠ Except.error JsError.notFoundError
  simp

/-- **C2 (amended).** With truthy credentials, if the vault returns an
empty version list then resolution fails — with the runtime type error
raised by indexing the empty (sorted) list, rather than a
distinguished not-found error — after the single listing call, and no
secret value is returned. -/
theorem getSecret_empty_versions_fails (env : Env) (vault : Vault) (s : Secret)
    (hcreds : (truthy (env "TYPES_PUBLISHER_CLIENT_ID") &&
      truthy (env "TYPES_PUBLISHER_CLIENT_SECRET")) = true)
    (hempty : vault.getSecretVersions azureKeyvault (azureSecretName s) = []) :
    getSecret env vault s =
      (Except.error JsError.typeError,
       [NetworkCall.getSecretVersions azureKeyvault (azureSecretName s)]) := by
  simp [getSecret, hcreds, hempty, sortBy]

/-- Witness for amended C2 at the empty vault. -/
theorem getSecret_empty_versions_fails_witness :
    vaultEmpty.getSecretVersions azureKeyvault
      (azureSecretName Secret.GITHUB_ACCESS_TOKEN) = [] ∧
    getSecret envOk vaultEmpty Secret.GITHUB_ACCESS_TOKEN =
      (Except.error JsError.typeError,
       [NetworkCall.getSecretVersions azureKeyvault
         (azureSecretName Secret.GITHUB_ACCESS_TOKEN)]) :=
  ⟨rfl, getSecret_empty_versions_fails envOk vaultEmpty
    Secret.GITHUB_ACCESS_TOKEN (by decide) rfl⟩

/-- **C1.** With truthy credentials and a non-empty version list whose
creation timestamps are pairwise distinct, resolution selects the
version with the maximum creation timestamp: the value returned is the
one fetched for that unique newest version. -/
theorem getSecret_selects_max_created (env : Env) (vault : Vault) (s : Secret)
    (hcreds : (truthy (env "TYPES_PUBLISHER_CLIENT_ID") &&
      truthy (env "TYPES_PUBLISHER_CLIENT_SECRET")) = true)
    (hne : vault.getSecretVersions azureKeyvault (azureSecretName s) ≠ [])
    (hdist : (vault.getSecretVersions azureKeyvault (azureSecretName s)).Pairwise
      fun a b => a.attributes.created ≠ b.attributes.created) :
    ∃ v ∈ vault.getSecretVersions azureKeyvault (azureSecretName s),
      (∀ w ∈ vault.getSecretVersions azureKeyvault (azureSecretName s),
        w ≠ v → w.attributes.created < v.attributes.created) ∧
      (getSecret env vault s).1 =
        Except.ok (vault.getSecret azureKeyvault (azureSecretName s)
          (terminalSegment v.id)).value := by
  obtain ⟨v, t, heq, hv, hmax⟩ := sortBy_head_max _ hne
  refine ⟨v, hv, ?_, ?_⟩
  · intro w hw hwv
    have h1 := hmax w hw
    have h2 : w.attributes.created ≠ v.attributes.created :=
      hdist.forall (fun _ _ h => h.symm) hw hv hwv
    omega
  · simp [getSecret, hcreds, heq, terminalSegment]

/-- Witness for C1: two versions with distinct timestamps 1 < 2. -/
theorem getSecret_selects_max_created_witness :
    vaultTwo.getSecretVersions azureKeyvault (azureSecretName Secret.NPM_TOKEN) ≠ [] ∧
    ((vaultTwo.getSecretVersions azureKeyvault (azureSecretName Secret.NPM_TOKEN)).Pairwise
      fun a b => a.attributes.created ≠ b.attributes.created) ∧
    ∃ v ∈ vaultTwo.getSecretVersions azureKeyvault (azureSecretName Secret.NPM_TOKEN),
      (∀ w ∈ vaultTwo.getSecretVersions azureKeyvault (azureSecretName Secret.NPM_TOKEN),
        w ≠ v → w.attributes.created < v.attributes.created) ∧
      (getSecret envOk vaultTwo Secret.NPM_TOKEN).1 =
        Except.ok (vaultTwo.getSecret azureKeyvault (azureSecretName Secret.NPM_TOKEN)
          (terminalSegment v.id)).value :=
  ⟨by decide, by decide,
    getSecret_selects_max_created envOk vaultTwo Secret.NPM_TOKEN
      (by decide) (by decide) (by decide)⟩

/-- **C6.** Under the same hypotheses, the fetch request issued for
the selected (newest) version uses as version identifier the terminal
path segment of that version's id. -/
theorem getSecret_fetches_terminal_segment (env : Env) (vault : Vault) (s : Secret)
    (hcreds : (truthy (env "TYPES_PUBLISHER_CLIENT_ID") &&
      truthy (env "TYPES_PUBLISHER_CLIENT_SECRET")) = true)
    (hne : vault.getSecretVersions azureKeyvault (azureSecretName s) ≠ [])
    (hdist : (vault.getSecretVersions azureKeyvault (azureSecretName s)).Pairwise
      fun a b => a.attributes.created ≠ b.attributes.created) :
    ∃ v ∈ vault.getSecretVersions azureKeyvault (azureSecretName s),
      (∀ w ∈ vault.getSecretVersions azureKeyvault (azureSecretName s),
        w ≠ v → w.attributes.created < v.attributes.created) ∧
      (getSecret env vault s).2 =
        [NetworkCall.getSecretVersions azureKeyvault (azureSecretName s),
         NetworkCall.getSecret azureKeyvault (azureSecretName s)
           (terminalSegment v.id)] := by
  obtain ⟨v, t, heq, hv, hmax⟩ := sortBy_head_max _ hne
  refine ⟨v, hv, ?_, ?_⟩
  · intro w hw hwv
    have h1 := hmax w hw
    have h2 : w.attributes.created ≠ v.attributes.created :=
      hdist.forall (fun _ _ h => h.symm) hw hv hwv
    omega
  · simp [getSecret, hcreds, heq, terminalSegment]

/-- Witness for C6: for ids ending in `/v1` (created 1) and `/v2`
(created 2), the fetch call uses version identifier `v2`. -/
theorem getSecret_fetches_terminal_segment_witness :
    terminalSegment ver2.id = "v2" ∧
    vaultTwo.getSecretVersions azureKeyvault (azureSecretName Secret.GITHUB_SECRET) ≠ [] ∧
    ((vaultTwo.getSecretVersions azureKeyvault (azureSecretName Secret.GITHUB_SECRET)).Pairwise
      fun a b => a.attributes.created ≠ b.attributes.created) ∧
    ∃ v ∈ vaultTwo.getSecretVersions azureKeyvault (azureSecretName Secret.GITHUB_SECRET),
      (∀ w ∈ vaultTwo.getSecretVersions azureKeyvault (azureSecretName Secret.GITHUB_SECRET),
        w ≠ v → w.attributes.created < v.attributes.created) ∧
      (getSecret envOk vaultTwo Secret.GITHUB_SECRET).2 =
        [NetworkCall.getSecretVersions azureKeyvault (azureSecretName Secret.GITHUB_SECRET),
         NetworkCall.getSecret azureKeyvault (azureSecretName Secret.GITHUB_SECRET)
           (terminalSegment v.id)] :=
  ⟨by decide, by decide, by decide,
    getSecret_fetches_terminal_segment envOk vaultTwo Secret.GITHUB_SECRET
      (by decide) (by decide) (by decide)⟩

/-- **C5.** Every derived vault secret name is lowercase (no
uppercase character) and contains no underscore, and the
storage-access-key member derives `azure-storage-access-key`. -/
theorem azureSecretName_lowercase_no_underscore :
    (∀ s : Secret,
      ((azureSecretName s).data.all fun c => !c.isUpper && !(c == '_')) = true) ∧
    azureSecretName Secret.AZURE_STORAGE_ACCESS_KEY = "azure-storage-access-key" := by
  refine ⟨?_, by decide⟩
  intro s
  cases s <;> decide

/-- **C7.** When the identity provider grants a token for the
challenge's authority and resource, the credential callback produces
the authorization header value `tokenType`, a single space, then
`accessToken`. -/
theorem credentialsCallback_header_format
    (acquire : String → String → String → String → Except String TokenResponse)
    (challenge : Challenge) (clientId clientSecret : String) (t : TokenResponse)
    (h : acquire challenge.authorization challenge.resource clientId clientSecret
      = Except.ok t) :
    credentialsCallback acquire challenge clientId clientSecret
      = Except.ok (t.tokenType ++ " " ++ t.accessToken) := by
  simp [credentialsCallback, h]

/-- Witness for C7: a provider granting `Bearer token-123` yields the
header value `"Bearer token-123"`. -/
theorem credentialsCallback_header_format_witness :
    acquireOk challengeA.authorization challengeA.resource "cid" "csec"
      = Except.ok (⟨"Bearer", "token-123"⟩ : TokenResponse) ∧
    credentialsCallback acquireOk challengeA "cid" "csec"
      = Except.ok "Bearer token-123" :=
  ⟨rfl, credentialsCallback_header_format acquireOk challengeA "cid" "csec"
    ⟨"Bearer", "token-123"⟩ rfl⟩

/-- **C9.** The derived-vault-name mapping is injective on the
`Secret` enumeration: distinct members derive distinct vault names. -/
theorem azureSecretName_injective (s t : Secret) (h : s ≠ t) :
    azureSecretName s ≠ azureSecretName t := by
  cases s <;> cases t <;> first
    | exact absurd rfl h
    | decide

/-- Witness for C9 at two distinct members. -/
theorem azureSecretName_injective_witness :
    Secret.GITHUB_SECRET ≠ Secret.NPM_TOKEN ∧
    azureSecretName Secret.GITHUB_SECRET ≠ azureSecretName Secret.NPM_TOKEN :=
  ⟨by decide, azureSecretName_injective Secret.GITHUB_SECRET Secret.NPM_TOKEN
    (by decide)⟩

/-- **C10.** `allSecrets` contains exactly the numeric values of the
enumeration's members, each exactly once, in declaration order
(`[0, 1, 2, 3]`); the string keys of the emitted enum object
contribute nothing. -/
theorem allSecrets_enum_values :
    allSecrets = [Secret.toNum Secret.AZURE_STORAGE_ACCESS_KEY,
      Secret.toNum Secret.GITHUB_ACCESS_TOKEN,
      Secret.toNum Secret.GITHUB_SECRET,
      Secret.toNum Secret.NPM_TOKEN] ∧
    allSecrets = [0, 1, 2, 3] ∧
    allSecrets.Nodup :=
  ⟨by decide, by decide, by decide⟩
